import Mathlib

/-!
Verification of the fulcrum-proxy repository's synchronization engine.

The development shallowly embeds the engine's pure logic:
* dependency ordering (`sortDependencies` in the mirror script),
* resource-name derivation (`syncResource`'s table-name computation),
* the retrying fetcher (`fetchWithRetry`),
* the proxy's auto-pagination loop (`POST /call` with `autoPage`) and its
  single-page helper (`fetchPage`),
* the proxy's shared-secret preflight,
* the batch writer (`saveBatch`) over an explicit storage state,
* the scheduler (`runConcurrentSyncs`) over an environment that fixes the
  outcome of every network and storage interaction.

Effectful JavaScript is modelled by explicit oracles (attempt outcomes,
upstream pages, existing tables) and explicit state passing; machine-level
concerns (actual wall-clock sleeping, connection pooling) are represented by
the data that decides them (recorded sleep durations in milliseconds, fetch
counts).
-/

namespace Fulcrum

/-! ## String utilities shared by several components -/

/-- Does the character class `\w` = `[A-Za-z0-9_]` of a JavaScript regular
expression accept `c`? -/
def wordChar (c : Char) : Bool :=
  c.isAlpha || c.isDigit || c == '_'

/-- Does `hay` start with `needle`?  (Helper for the substring test.) -/
def seqStarts : List Char → List Char → Bool
  | [], _ => true
  | _ :: _, [] => false
  | a :: as, b :: bs => a == b && seqStarts as bs

/-- Does `hay` contain `needle` as a contiguous subsequence?  Models
JavaScript `String.prototype.includes`. -/
def seqContains (needle : List Char) : List Char → Bool
  | [] => seqStarts needle []
  | c :: t => seqStarts needle (c :: t) || seqContains needle t

/-- `strIncludes hay needle` models the JavaScript test `hay.includes(needle)`. -/
def strIncludes (hay needle : String) : Bool :=
  seqContains needle.data hay.data

/-! ## Dependency ordering (`sortDependencies`, mirror script)

```js
function sortDependencies(paths) {
  const priority = ["items","item-boms","routing","jobs","workorders",
                    "inventory","materials","customers","vendors"];
  return paths.sort((a,b)=>{
    const rank = p => priority.findIndex(k=>p.includes(k));
    const ra=rank(a), rb=rank(b);
    return (ra===-1?99:ra)-(rb===-1?99:rb);
  });
}
```

`Array.prototype.sort` is stable (ES2019) and the comparator is induced by the
numeric key `rank`, so the result is the stable sort by that key; we model it
with `List.insertionSort`, which is stable. -/

/-- The fixed priority list of resource-name keyword substrings. -/
def priorityList : List String :=
  ["items", "item-boms", "routing", "jobs", "workorders",
   "inventory", "materials", "customers", "vendors"]

/-- `rank` of a path: index of the first priority keyword (in priority order)
contained in the path, with non-matches mapped to 99, exactly as the
comparator does with `findIndex` and `ra===-1?99:ra`. -/
def rankOr99 (p : String) : Nat :=
  match priorityList.findIdx? (fun k => strIncludes p k) with
  | some i => i
  | none => 99

/-- The total preorder the comparator `(ra-rb)` induces on paths. -/
def rankLe (a b : String) : Prop :=
  rankOr99 a ≤ rankOr99 b

instance : DecidableRel rankLe := fun a b =>
  inferInstanceAs (Decidable (rankOr99 a ≤ rankOr99 b))

instance : IsTotal String rankLe :=
  ⟨fun a b => Nat.le_total (rankOr99 a) (rankOr99 b)⟩

instance : IsTrans String rankLe :=
  ⟨fun _ _ _ h h' => Nat.le_trans h h'⟩

/-- `sortDependencies`: the stable sort of the paths by `rankOr99`. -/
def sortDependencies (paths : List String) : List String :=
  paths.insertionSort rankLe

/-- Stability of `sortDependencies`: paths of any one rank keep their relative
input order (their filtered subsequence is unchanged). -/
lemma filter_rank_sortDependencies (paths : List String) (n : Nat) :
    (sortDependencies paths).filter (fun p => rankOr99 p == n)
      = paths.filter (fun p => rankOr99 p == n) := by
  set f : String → Bool := fun p => rankOr99 p == n with hf
  have hperm : List.Perm ((sortDependencies paths).filter f) (paths.filter f) :=
    (List.perm_insertionSort rankLe paths).filter f
  have hpw : (paths.filter f).Pairwise rankLe := by
    refine List.pairwise_of_forall_mem_list ?_
    intro a ha b hb
    have ha' := (List.mem_filter.mp ha).2
    have hb' := (List.mem_filter.mp hb).2
    simp only [hf, beq_iff_eq] at ha' hb'
    unfold rankLe
    omega
  have hsub : List.Sublist (paths.filter f) (sortDependencies paths) :=
    List.sublist_insertionSort hpw (List.filter_sublist paths)
  have hsub2 : List.Sublist (paths.filter f) ((sortDependencies paths).filter f) := by
    have h2 := hsub.filter f
    simpa [List.filter_filter] using h2
  exact (hsub2.eq_of_length hperm.length_eq.symm).symm

/-- C6: the Scheduler's order function sorts endpoint paths by the fixed
priority list: a path's rank (`rankOr99`) is the index of the earliest
priority keyword it contains as a substring, non-matches (rank 99) sort after
all matches, ties keep their relative input order, and the concrete example
`["/api/customers/list","/api/items/list","/api/jobs/list"]` (ranks 7, 0, 3)
yields the order items, jobs, customers.  The output is sorted by rank, is a
permutation of the input, and each rank's subsequence is preserved. -/
theorem claim_C6_dependency_ordering (paths : List String) :
    sortDependencies ["/api/customers/list", "/api/items/list", "/api/jobs/list"]
        = ["/api/items/list", "/api/jobs/list", "/api/customers/list"]
    ∧ rankOr99 "/api/items/list" = 0
    ∧ rankOr99 "/api/jobs/list" = 3
    ∧ rankOr99 "/api/customers/list" = 7
    ∧ List.Perm (sortDependencies paths) paths
    ∧ List.Sorted rankLe (sortDependencies paths)
    ∧ ∀ n, (sortDependencies paths).filter (fun p => rankOr99 p == n)
        = paths.filter (fun p => rankOr99 p == n) :=
  ⟨by decide, by decide, by decide, by decide,
   List.perm_insertionSort rankLe paths,
   List.sorted_insertionSort rankLe paths,
   fun n => filter_rank_sortDependencies paths n⟩

/-! ## Resource-name derivation (`syncResource`, mirror script)

```js
const resource = path
  .split("/")
  .filter(p => p && !p.startsWith("{") && p !== "api")
  .join("_")
  .replace(/[^a-zA-Z0-9_]/g, "_");
```
-/

/-- The global single-character replacement `.replace(/[^a-zA-Z0-9_]/g, "_")`. -/
def sanitize (s : String) : String :=
  s.map (fun c => if wordChar c then c else '_')

/-- Resource name derived from an endpoint path, as the mirror script
computes it (one combined filter pass, then join, then sanitize). -/
def deriveResource (path : String) : String :=
  sanitize (String.intercalate "_"
    ((path.splitOn "/").filter
      (fun p => p != "" && !(p.startsWith "\x7b") && p != "api")))

/-- Reference definition following the claim's words: split on '/', drop empty
segments, drop placeholder segments (starting with a brace), drop the literal
segment "api", join the remainder with '_', and replace every character
outside `[a-zA-Z0-9_]` with '_'. -/
def deriveResourceSpec (path : String) : String :=
  let segs0 := path.splitOn "/"
  let segs1 := segs0.filter (fun p => p != "")
  let segs2 := segs1.filter (fun p => !(p.startsWith "\x7b"))
  let segs3 := segs2.filter (fun p => p != "api")
  String.map (fun c => if c.isAlpha || c.isDigit || c == '_' then c else '_')
    (String.intercalate "_" segs3)

/-- C7: resource-name derivation is a deterministic pure function of the
endpoint path and coincides with the reference definition on every path;
in particular deriving twice on the same path yields the same identifier. -/
theorem claim_C7_derive_deterministic (path : String) :
    deriveResource path = deriveResourceSpec path
    ∧ deriveResource path = deriveResource path := by
  constructor
  · unfold deriveResource deriveResourceSpec sanitize wordChar
    congr 1
    simp only [List.filter_filter]
    congr 1
    refine List.filter_congr ?_
    intro x _
    cases h1 : x != "" <;> cases h2 : x.startsWith "\x7b" <;>
      cases h3 : x != "api" <;> simp [h1, h2, h3]
  · rfl

/-! ## Retrying fetcher (`fetchWithRetry`, mirror script)

```js
async function fetchWithRetry(url, options, retries = 5, backoff = 2000) {
  for (let i = 0; i < retries; i++) {
    try {
      const resp = await fetch(url, options);
      if (resp.status === 429) {
        const retryAfter = parseInt(resp.headers.get("retry-after")) || backoff / 1000;
        await new Promise(r => setTimeout(r, retryAfter * 1000));
        continue;
      }
      if (!resp.ok) {
        const text = await resp.text();
        throw new Error(`${resp.status}: ${text.slice(0, 200)}`);
      }
      return await resp.json();
    } catch (e) {
      if (i === retries - 1) throw e;
      await new Promise(r => setTimeout(r, backoff * Math.pow(2, i)));
    }
  }
}
```

The i-th fetch call's outcome is given by an oracle `att i`.  A 429 response
carries the parsed `retry-after` header: `some s` when `parseInt` yields the
integer `s`, `none` when the header is absent or unparseable (`parseInt`
gives `NaN`); `parseInt(h) || backoff / 1000` maps both `none` and `some 0`
to the fallback, since `0` and `NaN` are falsy.  Timed pauses are recorded
as a list of sleep durations in milliseconds. -/

/-- Outcome of one `fetch` call inside `fetchWithRetry`. -/
inductive AttemptResult (α : Type) where
  /-- `resp.ok` with JSON body `v`. -/
  | ok (v : α)
  /-- status 429; the parsed `retry-after` header in seconds, if any. -/
  | rateLimited (retryAfter : Option Nat)
  /-- a non-ok, non-429 status: the code throws `"<status>: <text[0:200]>"`. -/
  | httpError (status : Nat) (text : String)
  /-- `fetch` itself rejects (transport failure) with message `msg`. -/
  | netError (msg : String)
deriving DecidableEq

/-- Is the attempt a success (`resp.ok`)? -/
def AttemptResult.isOk : AttemptResult α → Bool
  | .ok _ => true
  | _ => false

/-- The message of the error thrown for a non-ok, non-429 response. -/
def errText (status : Nat) (text : String) : String :=
  toString status ++ ": " ++ text.take 200

/-- Milliseconds slept in the 429 branch:
`(parseInt(hdr) || backoff / 1000) * 1000`. -/
def retryAfterMs (hdr : Option Nat) (backoffMs : Nat) : Nat :=
  match hdr with
  | some s => if s = 0 then backoffMs / 1000 * 1000 else s * 1000
  | none => backoffMs / 1000 * 1000

/-- Result of `fetchWithRetry`: a JSON value, a thrown terminal error, or —
when the loop finishes all its iterations without returning or throwing
(only possible when every attempt hit the 429 branch) — the implicit
JavaScript return value `undefined`, modelled as `noResult`.  `fetches`
counts `fetch` calls; `sleepsMs` records every timed pause in order. -/
inductive RetryResult (α : Type) where
  | success (v : α) (fetches : Nat) (sleepsMs : List Nat)
  | failure (msg : String) (fetches : Nat) (sleepsMs : List Nat)
  | noResult (fetches : Nat) (sleepsMs : List Nat)
deriving DecidableEq

/-- Number of `fetch` calls the run performed. -/
def RetryResult.fetches : RetryResult α → Nat
  | .success _ n _ => n
  | .failure _ n _ => n
  | .noResult n _ => n

/-- Did the run end in a thrown terminal error? -/
def RetryResult.isFailure : RetryResult α → Bool
  | .failure _ _ _ => true
  | _ => false

/-- Did the run end in a successful JSON value? -/
def RetryResult.isSuccess : RetryResult α → Bool
  | .success _ _ _ => true
  | _ => false

/-- The loop of `fetchWithRetry`, with `fuel = retries - i` remaining
iterations, `i` the current attempt index and `sleeps` the pauses so far. -/
def fetchWithRetryGo (att : Nat → AttemptResult α) (retries backoffMs : Nat) :
    Nat → Nat → List Nat → RetryResult α
  | 0, i, sleeps => .noResult i sleeps
  | fuel + 1, i, sleeps =>
    match att i with
    | .ok v => .success v (i + 1) sleeps
    | .rateLimited hdr =>
      fetchWithRetryGo att retries backoffMs fuel (i + 1)
        (sleeps ++ [retryAfterMs hdr backoffMs])
    | .httpError st txt =>
      if i = retries - 1 then .failure (errText st txt) (i + 1) sleeps
      else fetchWithRetryGo att retries backoffMs fuel (i + 1)
        (sleeps ++ [backoffMs * 2 ^ i])
    | .netError msg =>
      if i = retries - 1 then .failure msg (i + 1) sleeps
      else fetchWithRetryGo att retries backoffMs fuel (i + 1)
        (sleeps ++ [backoffMs * 2 ^ i])

/-- `fetchWithRetry(url, options, retries, backoff)`; the callers use the
defaults `retries = 5`, `backoff = 2000`. -/
def fetchWithRetry (att : Nat → AttemptResult α) (retries backoffMs : Nat) :
    RetryResult α :=
  fetchWithRetryGo att retries backoffMs retries 0 []

/-- Upper bound on fetch calls: the loop runs at most `fuel` more times. -/
lemma go_fetches_le (att : Nat → AttemptResult α) (r b : Nat) :
    ∀ fuel i sleeps, (fetchWithRetryGo att r b fuel i sleeps).fetches ≤ i + fuel := by
  intro fuel
  induction fuel with
  | zero =>
    intro i sleeps
    simp [fetchWithRetryGo, RetryResult.fetches]
  | succ f ih =>
    intro i sleeps
    rw [fetchWithRetryGo]
    cases h : att i with
    | ok v =>
      simp only [h, RetryResult.fetches]
      omega
    | rateLimited hdr =>
      simp only [h]
      have := ih (i + 1) (sleeps ++ [retryAfterMs hdr b])
      omega
    | httpError st txt =>
      simp only [h]
      by_cases hi : i = r - 1
      · simp only [if_pos hi, RetryResult.fetches]
        omega
      · simp only [if_neg hi]
        have := ih (i + 1) (sleeps ++ [b * 2 ^ i])
        omega
    | netError m =>
      simp only [h]
      by_cases hi : i = r - 1
      · simp only [if_pos hi, RetryResult.fetches]
        omega
      · simp only [if_neg hi]
        have := ih (i + 1) (sleeps ++ [b * 2 ^ i])
        omega

/-- Exhaustion at the default bound 5: when no attempt succeeds, all 5
attempts are made and the outcome is decided by the last attempt: a non-429
failure is thrown as the terminal error, a 429 leaves the loop to end with
`undefined` (`noResult`). -/
lemma go_exhaust (att : Nat → AttemptResult α) (b : Nat) :
    ∀ fuel i sleeps, fuel + i = 5 → 1 ≤ fuel →
      (∀ j, j < 5 → (att j).isOk = false) →
      (fetchWithRetryGo att 5 b fuel i sleeps).fetches = 5
      ∧ (fetchWithRetryGo att 5 b fuel i sleeps).isSuccess = false
      ∧ (∀ st txt, att 4 = .httpError st txt →
          ∃ s2, fetchWithRetryGo att 5 b fuel i sleeps = .failure (errText st txt) 5 s2)
      ∧ (∀ m, att 4 = .netError m →
          ∃ s2, fetchWithRetryGo att 5 b fuel i sleeps = .failure m 5 s2)
      ∧ (∀ hdr, att 4 = .rateLimited hdr →
          ∃ s2, fetchWithRetryGo att 5 b fuel i sleeps = .noResult 5 s2) := by
  intro fuel
  induction fuel with
  | zero =>
    intro i sleeps h h1 hno
    omega
  | succ f ih =>
    intro i sleeps hfi hone hno
    by_cases hf : f = 0
    · subst hf
      have hi : i = 4 := by omega
      subst hi
      rw [fetchWithRetryGo]
      cases h4 : att 4 with
      | ok v =>
        have hc := hno 4 (by omega)
        rw [h4] at hc
        simp [AttemptResult.isOk] at hc
      | rateLimited hdr =>
        refine ⟨by simp [fetchWithRetryGo, RetryResult.fetches],
                by simp [fetchWithRetryGo, RetryResult.isSuccess], ?_, ?_, ?_⟩
        · intro st txt heq; cases heq
        · intro m heq; cases heq
        · intro hdr2 heq
          cases heq
          exact ⟨sleeps ++ [retryAfterMs hdr b], by simp [fetchWithRetryGo]⟩
      | httpError st txt =>
        refine ⟨by simp [RetryResult.fetches],
                by simp [RetryResult.isSuccess], ?_, ?_, ?_⟩
        · intro st2 txt2 heq
          cases heq
          exact ⟨sleeps, by simp⟩
        · intro m heq; cases heq
        · intro hdr2 heq; cases heq
      | netError m =>
        refine ⟨by simp [RetryResult.fetches],
                by simp [RetryResult.isSuccess], ?_, ?_, ?_⟩
        · intro st2 txt2 heq; cases heq
        · intro m2 heq
          cases heq
          exact ⟨sleeps, by simp⟩
        · intro hdr2 heq; cases heq
    · have hi4 : i ≠ 4 := by omega
      rw [fetchWithRetryGo]
      cases h : att i with
      | ok v =>
        have hc := hno i (by omega)
        rw [h] at hc
        simp [AttemptResult.isOk] at hc
      | rateLimited hdr =>
        exact ih (i + 1) (sleeps ++ [retryAfterMs hdr b]) (by omega) (by omega) hno
      | httpError st txt =>
        simp only [if_neg (show i ≠ 5 - 1 by omega)]
        exact ih (i + 1) (sleeps ++ [b * 2 ^ i]) (by omega) (by omega) hno
      | netError m =>
        simp only [if_neg (show i ≠ 5 - 1 by omega)]
        exact ih (i + 1) (sleeps ++ [b * 2 ^ i]) (by omega) (by omega) hno

/-- C3 (amended): the Retrying Fetcher makes at most 5 fetch attempts; when
no attempt succeeds all 5 are made (every transport failure or non-success
status retries until the bound) and the run never returns a successful
value; exhausting the attempts with a final transport failure or non-success
non-429 status surfaces the last error as the terminal failure — but when
the final attempt (e.g. every attempt) returns HTTP 429, the loop ends and
the function returns `undefined` (`noResult`) rather than surfacing an
error. -/
theorem claim_C3_retry_exhaustion (α : Type) (att : Nat → AttemptResult α)
    (hno : ∀ j, j < 5 → (att j).isOk = false) :
    (∀ att2 : Nat → AttemptResult α, (fetchWithRetry att2 5 2000).fetches ≤ 5)
    ∧ (fetchWithRetry att 5 2000).fetches = 5
    ∧ (fetchWithRetry att 5 2000).isSuccess = false
    ∧ (∀ st txt, att 4 = .httpError st txt →
        ∃ s2, fetchWithRetry att 5 2000 = .failure (errText st txt) 5 s2)
    ∧ (∀ m, att 4 = .netError m →
        ∃ s2, fetchWithRetry att 5 2000 = .failure m 5 s2)
    ∧ (∀ hdr, att 4 = .rateLimited hdr →
        ∃ s2, fetchWithRetry att 5 2000 = .noResult 5 s2) := by
  have h := go_exhaust att 2000 5 0 [] (by omega) (by omega) hno
  exact ⟨fun att2 => go_fetches_le att2 5 2000 5 0 [], h.1, h.2.1, h.2.2.1,
         h.2.2.2.1, h.2.2.2.2⟩

/-- Attempt oracle that always answers HTTP 500. -/
def attHttp500 : Nat → AttemptResult Nat := fun _ => .httpError 500 "boom"

/-- Witness for C3's theorem at a concrete oracle: five attempts of HTTP 500
make exactly 5 fetches and surface the last error. -/
theorem claim_C3_retry_exhaustion_witness :
    (fetchWithRetry attHttp500 5 2000).fetches = 5
    ∧ ∃ s2, fetchWithRetry attHttp500 5 2000 = .failure (errText 500 "boom") 5 s2 := by
  have h := claim_C3_retry_exhaustion Nat attHttp500 (fun j _ => rfl)
  exact ⟨h.2.1, h.2.2.2.1 500 "boom" rfl⟩

/-- Attempt oracle that always answers HTTP 429 with a 1-second hint. -/
def att429all : Nat → AttemptResult Nat := fun _ => .rateLimited (some 1)

/-- C3 counterexample: when every attempt returns HTTP 429 the call does not
surface an error — after 5 attempts (and five 1-second sleeps) it returns
`undefined` (`noResult`), a non-error value, contradicting the claim that
exhaustion always surfaces the last error as a terminal failure. -/
theorem claim_C3_counterexample :
    fetchWithRetry att429all 5 2000 = .noResult 5 [1000, 1000, 1000, 1000, 1000]
    ∧ (fetchWithRetry att429all 5 2000).isFailure = false := by
  exact ⟨rfl, rfl⟩

/-- C4 (amended): an attempt answered by HTTP 429 whose `retry-after` header
parses to an integer s ≥ 1 sleeps exactly s seconds (s·1000 ms) — for every
backoff base and attempt index, so the wait is the server hint, not the
exponential-backoff formula — and consumes exactly one attempt of the
budget; a single 429 followed by a success yields the successful response
(2 fetches, one s-second wait). -/
theorem claim_C4_rate_limit_wait (α : Type) (att : Nat → AttemptResult α)
    (backoffMs fuel i s : Nat) (sleeps : List Nat) (v : α)
    (h429 : att i = .rateLimited (some s)) (hs : 1 ≤ s) :
    fetchWithRetryGo att 5 backoffMs (fuel + 1) i sleeps
      = fetchWithRetryGo att 5 backoffMs fuel (i + 1) (sleeps ++ [s * 1000])
    ∧ (att 0 = .rateLimited (some s) → att 1 = .ok v →
        fetchWithRetry att 5 backoffMs = .success v 2 [s * 1000]) := by
  constructor
  · rw [fetchWithRetryGo, h429]
    simp only [retryAfterMs, if_neg (show ¬ s = 0 by omega)]
  · intro h0 h1
    show fetchWithRetryGo att 5 backoffMs (4 + 1) 0 [] = .success v 2 [s * 1000]
    rw [fetchWithRetryGo, h0]
    simp only [retryAfterMs, if_neg (show ¬ s = 0 by omega)]
    rw [fetchWithRetryGo, h1]
    simp

/-- Attempt oracle: one 429 with a 3-second hint, then success. -/
def att43 : Nat → AttemptResult Nat :=
  fun j => if j = 0 then .rateLimited (some 3) else .ok 7

/-- Witness for C4's theorem at a concrete oracle: the 3-second hint causes a
3000 ms wait and the call still succeeds on the second fetch. -/
theorem claim_C4_rate_limit_wait_witness :
    fetchWithRetryGo att43 5 2000 (4 + 1) 0 []
      = fetchWithRetryGo att43 5 2000 4 1 [3000]
    ∧ fetchWithRetry att43 5 2000 = .success 7 2 [3000] := by
  have h := claim_C4_rate_limit_wait Nat att43 2000 4 0 3 [] 7 rfl (by omega)
  exact ⟨by simpa using h.1, by simpa using h.2 rfl rfl⟩

/-- Attempt oracle: one 429 with a 0-second hint, then success. -/
def att40zero : Nat → AttemptResult Nat :=
  fun j => if j = 0 then .rateLimited (some 0) else .ok 7

/-- C4 counterexample: a 429 whose `retry-after` header parses to 0 seconds
does not sleep 0 seconds — `parseInt(h) || backoff / 1000` treats 0 as falsy
and falls back to the 2-second default, so the recorded wait is 2000 ms,
not 0·1000 ms. -/
theorem claim_C4_counterexample :
    fetchWithRetry att40zero 5 2000 = .success 7 2 [2000]
    ∧ (2000 : Nat) ≠ 0 * 1000 := by
  exact ⟨rfl, by decide⟩

/-- Attempt oracle: upstream authorization error 401, then success. -/
def attAuthThenOk : Nat → AttemptResult Nat :=
  fun j => if j = 0 then .httpError 401 "denied" else .ok 9

/-- C8 counterexample: a 401 response is retried by the mirror's
`fetchWithRetry` — after the first attempt returns HTTP 401 a second fetch of
the same request is made (2 fetches, one backoff sleep) and the call returns
the second attempt's success, contradicting the claim that for every call
issued by the system an authorization error is never retried and is
propagated immediately. -/
theorem claim_C8_counterexample :
    fetchWithRetry attAuthThenOk 5 2000 = .success 9 2 [2000]
    ∧ (fetchWithRetry attAuthThenOk 5 2000).fetches = 2 := by
  exact ⟨rfl, rfl⟩

/-! ## Auto-pagination (`POST /call`, proxy server)

```js
async function fetchPage({ url, methodUp, headers, body }) {
  const resp = await fetch(url, { method: methodUp, headers, body });
  if (resp.status === 401 || resp.status === 403) {
    ... const err = new Error("fulcrum_unauthorized");
    err.status = resp.status; err.upstream = upstream; throw err;
  }
  ... return { status: resp.status, data };
}
...
const take     = Math.max(1, Math.min( Number(autoPage.take ?? 200), 500 ));
const maxPages = Math.max(1, Math.min( Number(autoPage.maxPages ?? 10), 100 ));
const maxRows  = Math.max(1, Math.min( Number(autoPage.maxRows ?? 2000), 100000 ));
let skip = Number(autoPage.startSkip ?? 0);
const all = [];
for (let page = 0; page < maxPages && all.length < maxRows; page++) {
  ... const { status, data } = await fetchPage(...);
  if (status < 200 || status >= 300) return res.status(status).json(data);
  if (Array.isArray(data)) { all.push(...data); if (data.length < take) break; }
  else if (data && Array.isArray(data.items)) { all.push(...data.items);
    if (data.items.length < take) break; }
  else { return res.status(200).json(data); }
  skip += take;
  if (all.length >= maxRows) break;
}
return res.status(200).json(all);
```

The upstream is an oracle from the current `Skip` value to a response.  The
loop's fuel is the remaining page budget; the bottom `all.length >= maxRows`
break restates the loop guard checked at the head of the next iteration and
is subsumed by it (identical condition, identical returned value).  A thrown
`fulcrum_unauthorized` is caught by the handler, which replies with the
error's status and upstream body (`authError`). -/

/-- Parsed JSON body of one upstream page. -/
inductive PageData (α : Type) where
  /-- a bare JSON array of records -/
  | arr (xs : List α)
  /-- an object exposing an `items` array -/
  | withItems (xs : List α)
  /-- any other JSON shape -/
  | other
deriving DecidableEq

/-- One upstream HTTP response: status and parsed body. -/
structure UpResp (α : Type) where
  status : Nat
  data : PageData α
deriving DecidableEq

/-- Response of the `/call` handler for an auto-paginated list call. -/
inductive CallRes (α : Type) where
  /-- status 200 with the accumulated records -/
  | pagedOk (records : List α) (fetches : Nat)
  /-- a non-2xx page: its status and body are returned as-is -/
  | httpErr (status : Nat) (data : PageData α) (fetches : Nat)
  /-- unexpected page shape: returned immediately with status 200 -/
  | passthrough (data : PageData α) (fetches : Nat)
  /-- 401/403 thrown by `fetchPage`: status plus `fulcrum_unauthorized`
  wrapper carrying the upstream body -/
  | authError (status : Nat) (upstream : PageData α) (fetches : Nat)
deriving DecidableEq

/-- `fetchPage`: one upstream fetch; 401/403 is thrown (`Except.error`) with
the upstream body, anything else is returned with its status. -/
def fetchPage (r : UpResp α) : Except (Nat × PageData α) (Nat × PageData α) :=
  if r.status = 401 ∨ r.status = 403 then Except.error (r.status, r.data)
  else Except.ok (r.status, r.data)

/-- The auto-pagination loop.  `fuel` is the remaining page budget
(`maxPages - page`), `skip` the current cursor, `acc` the accumulated
records, `n` the number of fetches so far. -/
def autoPageGo (up : Nat → UpResp α) (tk maxRows : Nat) :
    Nat → Nat → List α → Nat → CallRes α
  | 0, _skip, acc, n => .pagedOk acc n
  | fuel + 1, skip, acc, n =>
    if maxRows ≤ acc.length then .pagedOk acc n
    else
      match fetchPage (up skip) with
      | .error (st, d) => .authError st d (n + 1)
      | .ok (st, d) =>
        if st < 200 ∨ 300 ≤ st then .httpErr st d (n + 1)
        else
          match d with
          | .arr xs =>
            if xs.length < tk then .pagedOk (acc ++ xs) (n + 1)
            else autoPageGo up tk maxRows fuel (skip + tk) (acc ++ xs) (n + 1)
          | .withItems xs =>
            if xs.length < tk then .pagedOk (acc ++ xs) (n + 1)
            else autoPageGo up tk maxRows fuel (skip + tk) (acc ++ xs) (n + 1)
          | .other => .passthrough d (n + 1)

/-- `Math.max(1, Math.min(take, 500))`. -/
def clampTake (t : Nat) : Nat := max 1 (min t 500)

/-- `Math.max(1, Math.min(maxPages, 100))`. -/
def clampMaxPages (p : Nat) : Nat := max 1 (min p 100)

/-- `Math.max(1, Math.min(maxRows, 100000))`. -/
def clampMaxRows (r : Nat) : Nat := max 1 (min r 100000)

/-- The auto-paginated list call: clamp the requested bounds, then run
the loop from `startSkip` with empty accumulator. -/
def callAutoPage (up : Nat → UpResp α) (tk mp mr s0 : Nat) : CallRes α :=
  autoPageGo up (clampTake tk) (clampMaxRows mr) (clampMaxPages mp) s0 [] 0

/-- Concatenation of the first `j` pages of a page family, in page order. -/
def catPages (pages : Nat → List α) : Nat → List α
  | 0 => []
  | j + 1 => catPages pages j ++ pages j

lemma catPages_shift (pages : Nat → List α) :
    ∀ j, catPages pages (j + 1) = pages 0 ++ catPages (fun i => pages (i + 1)) j := by
  intro j
  induction j with
  | zero => simp [catPages]
  | succ n ih =>
    show catPages pages (n + 1) ++ pages (n + 1)
      = pages 0 ++ (catPages (fun i => pages (i + 1)) n ++ pages (n + 1))
    rw [ih, List.append_assoc]

lemma catPages_length (pages : Nat → List α) (P : Nat) :
    ∀ j, (∀ i, i < j → (pages i).length = P) → (catPages pages j).length = j * P := by
  intro j
  induction j with
  | zero => intro _; simp [catPages]
  | succ n ih =>
    intro h
    show (catPages pages n ++ pages n).length = (n + 1) * P
    rw [List.length_append, ih (fun i hi => h i (by omega)), h n (by omega)]
    ring

/-- One loop iteration on a full 2xx array page advances the cursor. -/
lemma autoPageGo_step_full (up : Nat → UpResp α) (tk maxRows fuel skip n : Nat)
    (acc xs : List α) (hup : up skip = ⟨200, .arr xs⟩) (hlen : xs.length = tk)
    (hg : acc.length < maxRows) :
    autoPageGo up tk maxRows (fuel + 1) skip acc n
      = autoPageGo up tk maxRows fuel (skip + tk) (acc ++ xs) (n + 1) := by
  rw [autoPageGo, if_neg (by omega), hup]
  simp only [fetchPage]
  rw [if_neg (by omega : ¬((200:Nat) = 401 ∨ (200:Nat) = 403))]
  simp only []
  rw [if_neg (by omega : ¬((200:Nat) < 200 ∨ 300 ≤ (200:Nat)))]
  rw [hlen, if_neg (by omega : ¬ tk < tk)]

/-- One loop iteration on a short 2xx array page ends the call with all
accumulated records. -/
lemma autoPageGo_step_short (up : Nat → UpResp α) (tk maxRows fuel skip n : Nat)
    (acc xs : List α) (hup : up skip = ⟨200, .arr xs⟩) (hshort : xs.length < tk)
    (hg : acc.length < maxRows) :
    autoPageGo up tk maxRows (fuel + 1) skip acc n = .pagedOk (acc ++ xs) (n + 1) := by
  rw [autoPageGo, if_neg (by omega), hup]
  simp only [fetchPage]
  rw [if_neg (by omega : ¬((200:Nat) = 401 ∨ (200:Nat) = 403))]
  simp only []
  rw [if_neg (by omega : ¬((200:Nat) < 200 ∨ 300 ≤ (200:Nat)))]
  rw [if_pos hshort]

/-- One loop iteration on a non-2xx, non-auth page returns that page's status
and body immediately, discarding nothing into the response. -/
lemma autoPageGo_step_err (up : Nat → UpResp α) (tk maxRows fuel skip n st : Nat)
    (acc : List α) (d : PageData α) (hup : up skip = ⟨st, d⟩)
    (hst : st < 200 ∨ 300 ≤ st) (h401 : st ≠ 401) (h403 : st ≠ 403)
    (hg : acc.length < maxRows) :
    autoPageGo up tk maxRows (fuel + 1) skip acc n = .httpErr st d (n + 1) := by
  rw [autoPageGo, if_neg (by omega), hup]
  simp only [fetchPage]
  rw [if_neg (by omega : ¬(st = 401 ∨ st = 403))]
  simp only []
  rw [if_pos hst]

/-- One loop iteration on a 401/403 page throws; the handler replies with
the auth error immediately. -/
lemma autoPageGo_step_auth (up : Nat → UpResp α) (tk maxRows fuel skip n st : Nat)
    (acc : List α) (d : PageData α) (hup : up skip = ⟨st, d⟩)
    (hst : st = 401 ∨ st = 403) (hg : acc.length < maxRows) :
    autoPageGo up tk maxRows (fuel + 1) skip acc n = .authError st d (n + 1) := by
  rw [autoPageGo, if_neg (by omega), hup]
  simp only [fetchPage]
  rw [if_pos hst]

/-- Running the loop over `j` consecutive full 2xx array pages accumulates
them in page order and advances cursor, fuel and fetch count by `j`. -/
lemma autoPageGo_advance (up : Nat → UpResp α) (tk maxRows : Nat) :
    ∀ (j : Nat) (pages : Nat → List α) (rest skip n : Nat) (acc : List α),
      (∀ i, i < j → up (skip + i * tk) = ⟨200, .arr (pages i)⟩) →
      (∀ i, i < j → (pages i).length = tk) →
      (∀ i, i < j → acc.length + i * tk < maxRows) →
      autoPageGo up tk maxRows (j + rest) skip acc n
        = autoPageGo up tk maxRows rest (skip + j * tk)
            (acc ++ catPages pages j) (n + j) := by
  intro j
  induction j with
  | zero =>
    intro pages rest skip n acc _ _ _
    simp [catPages]
  | succ m ih =>
    intro pages rest skip n acc hup hlen hguard
    have hfu : m + 1 + rest = (m + rest) + 1 := by omega
    rw [hfu]
    have h0 : up skip = ⟨200, .arr (pages 0)⟩ := by simpa using hup 0 (by omega)
    have hg0 : acc.length < maxRows := by simpa using hguard 0 (by omega)
    rw [autoPageGo_step_full up tk maxRows (m + rest) skip n acc (pages 0) h0
      (hlen 0 (by omega)) hg0]
    have hrec := ih (fun i => pages (i + 1)) rest (skip + tk) (n + 1) (acc ++ pages 0)
      (by
        intro i hi
        rw [show skip + tk + i * tk = skip + (i + 1) * tk by ring]
        exact hup (i + 1) (by omega))
      (fun i hi => hlen (i + 1) (by omega))
      (by
        intro i hi
        have hgi := hguard (i + 1) (by omega)
        have h1 : (i + 1) * tk = tk + i * tk := by ring
        rw [h1] at hgi
        rw [List.length_append, hlen 0 (by omega)]
        omega)
    rw [hrec]
    have e1 : skip + tk + m * tk = skip + (m + 1) * tk := by ring
    have e2 : (acc ++ pages 0) ++ catPages (fun i => pages (i + 1)) m
        = acc ++ catPages pages (m + 1) := by
      rw [catPages_shift, List.append_assoc]
    have e3 : n + 1 + m = n + (m + 1) := by omega
    rw [e1, e2, e3]

/-- C2: an auto-paginated list call with page size P (1 ≤ P ≤ 500) over an
upstream returning successive pages of sizes P, P, P, then k < P, with
bounds large enough not to interfere (4 ≤ maxPages ≤ 100, 3·P < maxRows ≤
100000), performs exactly 4 page fetches and returns exactly the 3P+k
records concatenated in page order; the short page ends the loop before the
page or row bounds are consulted. -/
theorem claim_C2_pagination (α : Type) (up : Nat → UpResp α)
    (p0 p1 p2 p3 : List α) (P k mp mr s0 : Nat)
    (hP1 : 1 ≤ P) (hP500 : P ≤ 500) (hk : k < P)
    (hmp4 : 4 ≤ mp) (hmp100 : mp ≤ 100) (hmr3 : 3 * P < mr) (hmrc : mr ≤ 100000)
    (hl0 : p0.length = P) (hl1 : p1.length = P) (hl2 : p2.length = P)
    (hl3 : p3.length = k)
    (u0 : up s0 = ⟨200, .arr p0⟩) (u1 : up (s0 + P) = ⟨200, .arr p1⟩)
    (u2 : up (s0 + 2 * P) = ⟨200, .arr p2⟩) (u3 : up (s0 + 3 * P) = ⟨200, .arr p3⟩) :
    callAutoPage up P mp mr s0 = .pagedOk (p0 ++ p1 ++ p2 ++ p3) 4 := by
  have hct : clampTake P = P := by unfold clampTake; omega
  have hcr : clampMaxRows mr = mr := by unfold clampMaxRows; omega
  have hcp : clampMaxPages mp = mp := by unfold clampMaxPages; omega
  unfold callAutoPage
  rw [hct, hcr, hcp]
  obtain ⟨rest, hrest⟩ : ∃ rest, mp = 3 + (rest + 1) := ⟨mp - 4, by omega⟩
  rw [hrest]
  have hadv := autoPageGo_advance up P mr 3
    (fun i => if i = 0 then p0 else if i = 1 then p1 else p2) (rest + 1) s0 0 []
    (by
      intro i hi
      interval_cases i
      · simpa using u0
      · simpa using u1
      · simpa using u2)
    (by
      intro i hi
      interval_cases i <;> simpa)
    (by
      intro i hi
      interval_cases i <;> simp <;> omega)
  rw [hadv]
  have hcat : catPages (fun i => if i = 0 then p0 else if i = 1 then p1 else p2) 3
      = (p0 ++ p1) ++ p2 := by
    simp [catPages]
  rw [hcat]
  simp only [List.nil_append]
  rw [autoPageGo_step_short up P mr rest (s0 + 3 * P) 3 ((p0 ++ p1) ++ p2) p3 u3
    (by omega)
    (by simp [List.length_append, hl0, hl1, hl2]; omega)]

/-- Stub upstream for the C2 witness: pages [1,2], [3,4], [5,6], [7]. -/
def stubPages : Nat → UpResp Nat := fun skip =>
  if skip = 0 then ⟨200, .arr [1, 2]⟩
  else if skip = 2 then ⟨200, .arr [3, 4]⟩
  else if skip = 4 then ⟨200, .arr [5, 6]⟩
  else if skip = 6 then ⟨200, .arr [7]⟩
  else ⟨500, .other⟩

/-- Witness for C2 at P = 2, k = 1: exactly 4 fetches and the 7 records in
page order. -/
theorem claim_C2_pagination_witness :
    callAutoPage stubPages 2 10 1000 0 = .pagedOk [1, 2, 3, 4, 5, 6, 7] 4 := by
  have h := claim_C2_pagination Nat stubPages [1, 2] [3, 4] [5, 6] [7] 2 1 10 1000 0
    (by omega) (by omega) (by omega) (by omega) (by omega) (by omega) (by omega)
    rfl rfl rfl rfl rfl rfl rfl rfl
  simpa using h

/-- C5: if, after any number j of full 2xx pages, a page fetch answers with a
non-success status (outside 2xx; 401/403 take the distinct auth path of C8),
the call immediately returns that status and body after exactly j+1 fetches,
and the response is never the accumulated-records response — no partial
accumulation is returned. -/
theorem claim_C5_error_aborts (α : Type) (up : Nat → UpResp α)
    (pages : Nat → List α) (P mp mr s0 j st : Nat) (d : PageData α)
    (hP1 : 1 ≤ P) (hP500 : P ≤ 500) (hj : j < mp) (hmp100 : mp ≤ 100)
    (hmr : j * P < mr) (hmrc : mr ≤ 100000)
    (hfull : ∀ i, i < j → up (s0 + i * P) = ⟨200, .arr (pages i)⟩)
    (hlen : ∀ i, i < j → (pages i).length = P)
    (herr : up (s0 + j * P) = ⟨st, d⟩)
    (hst : st < 200 ∨ 300 ≤ st) (h401 : st ≠ 401) (h403 : st ≠ 403) :
    callAutoPage up P mp mr s0 = .httpErr st d (j + 1)
    ∧ ∀ recs m, callAutoPage up P mp mr s0 ≠ .pagedOk recs m := by
  have hct : clampTake P = P := by unfold clampTake; omega
  have hcr : clampMaxRows mr = mr := by unfold clampMaxRows; omega
  have hcp : clampMaxPages mp = mp := by unfold clampMaxPages; omega
  have hmain : callAutoPage up P mp mr s0 = .httpErr st d (j + 1) := by
    unfold callAutoPage
    rw [hct, hcr, hcp]
    obtain ⟨rest, hrest⟩ : ∃ rest, mp = j + (rest + 1) := ⟨mp - (j + 1), by omega⟩
    rw [hrest]
    rw [autoPageGo_advance up P mr j pages (rest + 1) s0 0 [] hfull hlen
      (by
        intro i hi
        have h2 : i * P ≤ j * P := Nat.mul_le_mul_right P (le_of_lt hi)
        simp only [List.length_nil]
        omega)]
    simp only [List.nil_append, Nat.zero_add]
    rw [autoPageGo_step_err up P mr rest (s0 + j * P) j st (catPages pages j) d herr
      hst h401 h403
      (by rw [catPages_length pages P j hlen]; omega)]
  refine ⟨hmain, ?_⟩
  intro recs m
  rw [hmain]
  simp

/-- Stub upstream for the C5 witness: two full pages, then HTTP 500. -/
def stubErrPages : Nat → UpResp Nat := fun skip =>
  if skip = 0 then ⟨200, .arr [1, 2]⟩
  else if skip = 2 then ⟨200, .arr [3, 4]⟩
  else ⟨500, .other⟩

/-- Witness for C5: the 500 after two full pages is returned as-is after 3
fetches and the four accumulated records are discarded from the response. -/
theorem claim_C5_error_aborts_witness :
    callAutoPage stubErrPages 2 10 1000 0 = .httpErr 500 .other 3
    ∧ ∀ recs m, callAutoPage stubErrPages 2 10 1000 0 ≠ .pagedOk recs m := by
  have h := claim_C5_error_aborts Nat stubErrPages
    (fun i => if i = 0 then [1, 2] else [3, 4]) 2 10 1000 0 2 500 .other
    (by omega) (by omega) (by omega) (by omega) (by omega) (by omega)
    (by intro i hi; interval_cases i <;> rfl)
    (by intro i hi; interval_cases i <;> rfl)
    rfl (by omega) (by omega) (by omega)
  simpa using h

/-- C8 (amended): in the proxy, an upstream 401/403 at any point of an
auto-paginated call is propagated immediately as the distinct
`fulcrum_unauthorized` kind carrying the upstream body, after exactly j+1
fetches — the proxy makes no further attempt of the request; the mirror's
`fetchWithRetry`, however, retries non-success statuses including 401/403
(see the counterexample). -/
theorem claim_C8_auth_not_retried (α : Type) (up : Nat → UpResp α)
    (pages : Nat → List α) (P mp mr s0 j st : Nat) (d : PageData α)
    (hP1 : 1 ≤ P) (hP500 : P ≤ 500) (hj : j < mp) (hmp100 : mp ≤ 100)
    (hmr : j * P < mr) (hmrc : mr ≤ 100000)
    (hfull : ∀ i, i < j → up (s0 + i * P) = ⟨200, .arr (pages i)⟩)
    (hlen : ∀ i, i < j → (pages i).length = P)
    (herr : up (s0 + j * P) = ⟨st, d⟩)
    (hst : st = 401 ∨ st = 403) :
    callAutoPage up P mp mr s0 = .authError st d (j + 1)
    ∧ ∀ recs m, callAutoPage up P mp mr s0 ≠ .pagedOk recs m := by
  have hct : clampTake P = P := by unfold clampTake; omega
  have hcr : clampMaxRows mr = mr := by unfold clampMaxRows; omega
  have hcp : clampMaxPages mp = mp := by unfold clampMaxPages; omega
  have hmain : callAutoPage up P mp mr s0 = .authError st d (j + 1) := by
    unfold callAutoPage
    rw [hct, hcr, hcp]
    obtain ⟨rest, hrest⟩ : ∃ rest, mp = j + (rest + 1) := ⟨mp - (j + 1), by omega⟩
    rw [hrest]
    rw [autoPageGo_advance up P mr j pages (rest + 1) s0 0 [] hfull hlen
      (by
        intro i hi
        have h2 : i * P ≤ j * P := Nat.mul_le_mul_right P (le_of_lt hi)
        simp only [List.length_nil]
        omega)]
    simp only [List.nil_append, Nat.zero_add]
    rw [autoPageGo_step_auth up P mr rest (s0 + j * P) j st (catPages pages j) d herr
      hst
      (by rw [catPages_length pages P j hlen]; omega)]
  refine ⟨hmain, ?_⟩
  intro recs m
  rw [hmain]
  simp

/-- Stub upstream for the C8 witness: one full page, then HTTP 401. -/
def stubAuthPages : Nat → UpResp Nat := fun skip =>
  if skip = 0 then ⟨200, .arr [1, 2]⟩ else ⟨401, .other⟩

/-- Witness for C8's amended theorem: a 401 after one full page yields the
distinct auth error carrying the upstream body after exactly 2 fetches. -/
theorem claim_C8_auth_not_retried_witness :
    callAutoPage stubAuthPages 2 10 1000 0 = .authError 401 .other 2
    ∧ ∀ recs m, callAutoPage stubAuthPages 2 10 1000 0 ≠ .pagedOk recs m := by
  have h := claim_C8_auth_not_retried Nat stubAuthPages (fun _ => [1, 2])
    2 10 1000 0 1 401 .other
    (by omega) (by omega) (by omega) (by omega) (by omega) (by omega)
    (by intro i hi; interval_cases i; rfl)
    (by intro i hi; interval_cases i; rfl)
    rfl (by omega)
  simpa using h

/-! ## Proxy `/call` preflight (secret check, diag, allowlist)

```js
const headerSecret   = req.headers["x-proxy-secret"];
const providedSecret = headerSecret || secret;
if (providedSecret !== SHARED_SECRET) {
  return res.status(401).json({ error: "invalid_proxy_secret" });
}
if (path === "/diag") { return res.json({ ok: true, ... }); }
if (!path || !ALLOWED_PREFIXES.some(p => path.startsWith(p))) {
  return res.status(400).json({ error: "Path not allowed" });
}
... // only then the upstream request(s)
```

Header and body secrets are possibly-absent strings; JavaScript `||`
falls through on the empty string, and `providedSecret !== SHARED_SECRET`
can never hold for an absent (`undefined`) credential.  The handler result
carries the number of upstream fetches performed, which is 0 whenever a
preflight check rejects the request. -/

/-- The parts of a `/call` request the preflight checks read. -/
structure CallReq where
  /-- `req.headers["x-proxy-secret"]` (absent or a string, possibly empty) -/
  headerSecret : Option String
  /-- `req.body.secret` -/
  bodySecret : Option String
  /-- `req.body.path` -/
  path : Option String
deriving DecidableEq

/-- JavaScript truthiness of a possibly-absent string: `undefined` and `""`
are falsy. -/
def jsTruthy : Option String → Bool
  | none => false
  | some s => s != ""

/-- JavaScript `a || b` on possibly-absent strings. -/
def jsOr (a b : Option String) : Option String :=
  if jsTruthy a then a else b

/-- `provided === SHARED_SECRET` (strict: `undefined` equals no string). -/
def secretMatches (provided : Option String) (shared : String) : Bool :=
  match provided with
  | some s => s == shared
  | none => false

/-- `ALLOWED_PREFIXES.some(p => path.startsWith(p))`. -/
def isAllowedPath (p : String) : Bool :=
  p.startsWith "/api/" || p.startsWith "/swagger/v1/swagger.json"

/-- Strict equality of a possibly-absent string with a string (for `/diag`). -/
def optEqStr (a : Option String) (s : String) : Bool :=
  match a with
  | some v => v == s
  | none => false

/-- Response of the `/call` handler including the preflight outcomes. -/
inductive HandlerRes (α : Type) where
  /-- 401 `{ error: "invalid_proxy_secret" }` -/
  | invalidSecret
  /-- the internal `/diag` reply -/
  | diag (gotHeader gotBody headerMatch bodyMatch : Bool)
  /-- 400 `{ error: "Path not allowed" }` -/
  | pathNotAllowed
  /-- the upstream part of the handler ran and produced this result -/
  | upstream (r : CallRes α)
deriving DecidableEq

/-- The `/call` handler's preflight, with the upstream part of the handler
(result and its upstream fetch count) passed in as `upstreamPart`; the
second component of the result is the number of upstream fetches made. -/
def handleCall (sharedSecret : String) (req : CallReq)
    (upstreamPart : CallRes α × Nat) : HandlerRes α × Nat :=
  let provided := jsOr req.headerSecret req.bodySecret
  if secretMatches provided sharedSecret = false then (.invalidSecret, 0)
  else if req.path = some "/diag" then
    (.diag (jsTruthy req.headerSecret) (jsTruthy req.bodySecret)
       (optEqStr req.headerSecret sharedSecret) (optEqStr req.bodySecret sharedSecret), 0)
  else
    match req.path with
    | none => (.pathNotAllowed, 0)
    | some p =>
      if p = "" || !(isAllowedPath p) then (.pathNotAllowed, 0)
      else (.upstream upstreamPart.1, upstreamPart.2)

/-- C9: the credential checked is the header secret whenever a non-empty
header secret is supplied; the body secret is only consulted when the
header secret is absent or empty; and whenever the selected credential does
not match the configured shared secret, the call returns the distinct 401
`invalid_proxy_secret` failure with zero upstream requests made. -/
theorem claim_C9_secret_check (α : Type) (ss : String) (req : CallReq)
    (rest : CallRes α × Nat) :
    (∀ h, req.headerSecret = some h → h ≠ "" →
        jsOr req.headerSecret req.bodySecret = some h)
    ∧ ((req.headerSecret = none ∨ req.headerSecret = some "") →
        jsOr req.headerSecret req.bodySecret = req.bodySecret)
    ∧ (secretMatches (jsOr req.headerSecret req.bodySecret) ss = false →
        handleCall ss req rest = (.invalidSecret, 0)) := by
  refine ⟨?_, ?_, ?_⟩
  · intro h hh hne
    simp [jsOr, jsTruthy, hh, hne]
  · intro hcase
    rcases hcase with h | h <;> simp [jsOr, jsTruthy, h]
  · intro hm
    simp [handleCall, hm]

/-- Request whose header secret is wrong even though the body secret is
right: the header is preferred, so the call must be rejected. -/
def reqWrongHeader : CallReq :=
  { headerSecret := some "wrong", bodySecret := some "s3cret",
    path := some "/api/items/list" }

/-- Witness for C9: with a wrong header secret and a correct body secret the
call is rejected with `invalid_proxy_secret` and zero upstream fetches,
whatever the upstream part would have produced. -/
theorem claim_C9_secret_check_witness :
    handleCall "s3cret" reqWrongHeader (CallRes.pagedOk ([] : List Nat) 0, 5)
      = (.invalidSecret, 0) :=
  (claim_C9_secret_check Nat "s3cret" reqWrongHeader
    (CallRes.pagedOk ([] : List Nat) 0, 5)).2.2 (by decide)

/-! ## Batch writer (`saveBatch`, mirror script)

```js
async function saveBatch(client, resource, data) {
  if (!data.length) return;
  await client.query(`CREATE TABLE IF NOT EXISTS ${resource} (payload JSONB)`);
  const insert = `INSERT INTO ${resource}(payload) VALUES ($1)`;
  const batch = 1000;
  for (let i = 0; i < data.length; i += batch) {
    const slice = data.slice(i, i + batch);
    await Promise.all(slice.map(row => client.query(insert, [row])));
  }
  await client.query(`ALTER TABLE ${resource}
      ADD COLUMN IF NOT EXISTS id ..., ADD COLUMN IF NOT EXISTS createdutc ...;
    CREATE INDEX IF NOT EXISTS ${resource}_id_idx ON ${resource}(id);`);
}
```

Storage is an association list of relation states.  A relation records its
rows (appended; SQL tables are row-multisets, the order within one
concurrent 1000-slice is immaterial and modelled as slice order) and whether
the two derived projection columns and the id index exist. -/

/-- One mirrored relation: payload rows plus the idempotently added derived
columns and index. -/
structure TableState (α : Type) where
  rows : List α
  hasIdCol : Bool
  hasCreatedCol : Bool
  hasIdIdx : Bool
deriving DecidableEq

/-- The storage state: the relations by name, in creation order. -/
abbrev DBState (α : Type) := List (String × TableState α)

/-- Look a relation up by name. -/
def dbGet (db : DBState α) (name : String) : Option (TableState α) :=
  (db.find? (fun kv => kv.1 == name)).map (fun kv => kv.2)

/-- Replace a relation's state (or create it at the end). -/
def dbSet : DBState α → String → TableState α → DBState α
  | [], name, t => [(name, t)]
  | kv :: rest, name, t =>
    if kv.1 == name then (name, t) :: rest else kv :: dbSet rest name t

/-- `CREATE TABLE IF NOT EXISTS resource (payload JSONB)`. -/
def ensureTable (db : DBState α) (resource : String) : DBState α :=
  match dbGet db resource with
  | some _ => db
  | none => db ++ [(resource, ⟨[], false, false, false⟩)]

/-- Slices of `n` consecutive elements (`data.slice(i, i + n)` for
`i = 0, n, 2n, ...`); the fuel argument only drives the recursion and is
instantiated with the list's length. -/
def chunksOfFuel (n : Nat) : Nat → List β → List (List β)
  | 0, _ => []
  | _, [] => []
  | fuel + 1, x :: xs => (x :: xs.take (n - 1)) :: chunksOfFuel n fuel (xs.drop (n - 1))

/-- The successive slices of size `n` of a list. -/
def chunksOf (n : Nat) (l : List β) : List (List β) := chunksOfFuel n l.length l

lemma chunksOfFuel_flatMap_map (f : β → γ) (n : Nat) :
    ∀ (fuel : Nat) (l : List β), l.length ≤ fuel →
      (chunksOfFuel n fuel l).flatMap (fun s => s.map f) = l.map f := by
  intro fuel
  induction fuel with
  | zero =>
    intro l h
    have : l = [] := List.length_eq_zero.mp (by omega)
    subst this
    simp [chunksOfFuel]
  | succ m ih =>
    intro l h
    cases l with
    | nil => simp [chunksOfFuel]
    | cons x xs =>
      rw [chunksOfFuel]
      simp only [List.flatMap_cons, List.map_cons]
      rw [ih (xs.drop (n - 1)) (by simp [List.length_drop]; simp at h; omega)]
      simp only [List.cons_append]
      rw [← List.map_append, List.take_append_drop]

/-- Mapping a function over a chunked list, slice by slice, is mapping it
over the list. -/
theorem chunksOf_flatMap_map (f : β → γ) (n : Nat) (l : List β) :
    (chunksOf n l).flatMap (fun s => s.map f) = l.map f :=
  chunksOfFuel_flatMap_map f n l.length l le_rfl

/-- Net storage effect of one slice's `Promise.all` of single-row inserts:
the slice's rows are appended to the relation. -/
def appendRows (db : DBState α) (resource : String) (slice : List α) : DBState α :=
  match dbGet db resource with
  | some t => dbSet db resource { t with rows := t.rows ++ slice }
  | none => db

/-- The batched insert loop: slices of 1000 are written sequentially. -/
def insertAll (db : DBState α) (resource : String) (data : List α) : DBState α :=
  (chunksOf 1000 data).foldl (fun d slice => appendRows d resource slice) db

/-- `ADD COLUMN IF NOT EXISTS` twice and `CREATE INDEX IF NOT EXISTS`:
idempotently mark the projection columns and the id index present. -/
def addProjections (db : DBState α) (resource : String) : DBState α :=
  match dbGet db resource with
  | some t => dbSet db resource
      { t with hasIdCol := true, hasCreatedCol := true, hasIdIdx := true }
  | none => db

/-- `saveBatch(client, resource, data)`: the `if (!data.length) return;`
guard, then table creation, batched inserts and projection/index creation. -/
def saveBatch (db : DBState α) (resource : String) (data : List α) : DBState α :=
  if data.length = 0 then db
  else addProjections (insertAll (ensureTable db resource) resource data) resource

/-- C10: saving an empty record list is a complete no-op on storage: the
state is unchanged, so no relation, rows, projection columns or index are
created — a resource that yields zero records leaves no relation behind. -/
theorem claim_C10_empty_save_noop (α : Type) (db : DBState α) (resource : String) :
    saveBatch db resource ([] : List α) = db := by
  simp [saveBatch]

/-! ## Resource synchronizer and scheduler (`syncResource`,
`runConcurrentSyncs`, mirror script)

```js
async function syncResource(client, path) {
  const resource = ...;              // deriveResource above
  ...
  const param = path.match(/{(\w+)}/);
  if (param) {
    const paramName = param[1];
    const parentTable = paramName.replace(/Id$/, "").toLowerCase() + "s";
    const exists = await client.query(...information_schema...);
    if (!exists.rows[0].exists) {
      return { resource, rowcount: 0, errors: [`missing parent ${parentTable}`] };
    }
    for await (const ids of streamParentIds(client, parentTable, 10000)) {
      for (const id of ids) {
        const fullPath = path.replace(`{${paramName}}`, id);
        try { const sub = await fetchJSON(fullPath, sinceDate);
              if (Array.isArray(sub) && sub.length) { ... total += sub.length; } }
        catch (err) { /* logged, skipped */ }
        ...
      }
    }
    ...
  } else {
    const data = await fetchJSON(path, sinceDate);
    ... total = data.length;
  }
  ...
  return { resource, rowcount: total, errors: [] };
}

async function runConcurrentSyncs(client, paths, batchSize=5) {
  const ordered = sortDependencies(paths);
  const results=[];
  for(let i=0;i<ordered.length;i+=batchSize){
    const slice=ordered.slice(i,i+batchSize);
    const batchResults=await Promise.all(slice.map(p=>syncResource(client,p).catch(e=>{
      ... return {resource:p,rowcount:0,errors:[e.message]};
    })));
    results.push(...batchResults);
    await new Promise(r=>setTimeout(r,1000));
  }
  return results;
}
```

The environment fixes every external interaction: the set of existing
relations, each full path's `fetchJSON` outcome (a record list or a thrown
error message, after the fetcher's own retries), and the id stream of each
parent relation (the batched, falsy-filtered stream collapsed to its
resulting list).  The source's placeholder regex is written `/{(\\w+)}/`
in the committed file — a transcription artifact doubling the backslash —
and is modelled as the intended `/{(\w+)}/` the surrounding code and
comments assume ("Detect parameterized paths like {invoiceId}").  Storage
writes do not affect the returned outcome and watermark reads only feed
`fetchJSON`'s date parameter, absorbed by the oracle.  `Promise.all`
preserves order and the 1-second inter-wave pause has no effect on the
results, so the run's result list is the waves' results concatenated. -/

/-- First match of the placeholder pattern `{(\w+)}`: the name between the
braces.  On a failed candidate the scan resumes after the opening brace,
as a regex engine does. -/
def findPh : List Char → Option String
  | [] => none
  | c :: rest =>
    if c = '\x7b' then
      let name := rest.takeWhile wordChar
      if name ≠ [] ∧ (rest.drop name.length).head? = some '\x7d' then
        some (String.mk name)
      else findPh rest
    else findPh rest

/-- `paramName.replace(/Id$/, "").toLowerCase() + "s"`. -/
def parentTableOf (paramName : String) : String :=
  (if paramName.endsWith "Id" then paramName.dropRight 2 else paramName).toLower ++ "s"

/-- Replace the first occurrence of `pat` in a character list. -/
def replaceSeq (pat repl : List Char) : List Char → List Char
  | [] => []
  | c :: rest =>
    if pat.isPrefixOf (c :: rest) then repl ++ (c :: rest).drop pat.length
    else c :: replaceSeq pat repl rest

/-- JavaScript `s.replace(pat, repl)` with a string pattern: first
occurrence only. -/
def replaceFirst (s pat repl : String) : String :=
  String.mk (replaceSeq pat.data repl.data s.data)

/-- One endpoint's sync outcome as recorded by the scheduler: the fields of
the object `syncResource` returns (or the catch handler builds). -/
structure SyncOutcome where
  resource : String
  rowcount : Nat
  errors : List String
deriving DecidableEq

/-- The fixed environment of one run: existing relations, fetch outcomes,
parent-id streams. -/
structure SyncEnv (α : Type) where
  tables : List String
  fetchJSON : String → Except String (List α)
  parentIds : String → List String

/-- `syncResource`: derive the name; on a placeholder path check the parent
relation and fan out over its ids (per-id failures skipped), otherwise fetch
the path directly — a thrown fetch error propagates to the caller
(`Except.error`). -/
def syncResource (env : SyncEnv α) (path : String) : Except String SyncOutcome :=
  let resource := deriveResource path
  match findPh path.data with
  | some ph =>
    let parentTable := parentTableOf ph
    if env.tables.contains parentTable = false then
      Except.ok { resource := resource, rowcount := 0,
                  errors := ["missing parent " ++ parentTable] }
    else
      let total := (env.parentIds parentTable).foldl
        (fun t pid =>
          match env.fetchJSON (replaceFirst path ("\x7b" ++ ph ++ "\x7d") pid) with
          | .ok sub => t + sub.length
          | .error _ => t) 0
      Except.ok { resource := resource, rowcount := total, errors := [] }
  | none =>
    match env.fetchJSON path with
    | .ok data =>
      Except.ok { resource := resource, rowcount := data.length, errors := [] }
    | .error e => Except.error e

/-- `syncResource(client,p).catch(e=>({resource:p,rowcount:0,errors:[e.message]}))`:
the scheduler's per-endpoint failure conversion. -/
def outcomeOf (env : SyncEnv α) (p : String) : SyncOutcome :=
  match syncResource env p with
  | .ok r => r
  | .error e => { resource := p, rowcount := 0, errors := [e] }

/-- `runConcurrentSyncs`: order the paths, run them in waves of 5, collect
each wave's results in order. -/
def runConcurrentSyncs (env : SyncEnv α) (paths : List String) : List SyncOutcome :=
  (chunksOf 5 (sortDependencies paths)).flatMap (fun slice => slice.map (outcomeOf env))

/-- The wave partition is only a concurrency device: the run's results are
the per-endpoint outcomes in dependency order. -/
lemma runConcurrentSyncs_eq_map (env : SyncEnv α) (paths : List String) :
    runConcurrentSyncs env paths = (sortDependencies paths).map (outcomeOf env) :=
  chunksOf_flatMap_map (outcomeOf env) 5 (sortDependencies paths)

lemma map_getD (f : β → γ) :
    ∀ (l : List β) (i : Nat) (d : γ) (d0 : β), i < l.length →
      (l.map f).getD i d = f (l.getD i d0)
  | [], i, _, _, h => absurd h (by simp)
  | _ :: _, 0, _, _, _ => rfl
  | _ :: xs, i + 1, d, d0, h => map_getD f xs i d d0 (by simpa using h)

/-- C1: every endpoint of a run yields exactly one outcome (no exception
escapes and the run is the ordered list of per-endpoint outcomes); an
endpoint whose sync throws is caught and recorded as a zero-row outcome
carrying the error message; a missing parent relation yields — without any
thrown failure — a zero-row outcome naming the missing parent; and the
outcome at every position not holding an endpoint `p` is unchanged between
two environments that agree on the sync of every endpoint other than `p`,
so one endpoint's failure leaves its siblings' results untouched. -/
theorem claim_C1_scheduler_isolation (α : Type) (env env2 : SyncEnv α)
    (paths : List String) (p : String) :
    (runConcurrentSyncs env paths).length = paths.length
    ∧ runConcurrentSyncs env paths = (sortDependencies paths).map (outcomeOf env)
    ∧ (∀ q e, syncResource env q = .error e →
        outcomeOf env q = { resource := q, rowcount := 0, errors := [e] })
    ∧ (∀ q ph, findPh q.data = some ph →
        env.tables.contains (parentTableOf ph) = false →
        syncResource env q = .ok { resource := deriveResource q, rowcount := 0,
                                   errors := ["missing parent " ++ parentTableOf ph] })
    ∧ ((∀ q, q ≠ p → syncResource env q = syncResource env2 q) →
       ∀ i, (sortDependencies paths).getD i p ≠ p →
         (runConcurrentSyncs env paths).getD i ⟨"", 0, []⟩
           = (runConcurrentSyncs env2 paths).getD i ⟨"", 0, []⟩) := by
  refine ⟨?_, runConcurrentSyncs_eq_map env paths, ?_, ?_, ?_⟩
  · rw [runConcurrentSyncs_eq_map, List.length_map]
    exact (List.perm_insertionSort rankLe paths).length_eq
  · intro q e h
    unfold outcomeOf
    rw [h]
  · intro q ph h1 h2
    unfold syncResource
    rw [h1]
    simp [h2]
    simpa using h2
  · intro hagree i hne
    rw [runConcurrentSyncs_eq_map, runConcurrentSyncs_eq_map]
    by_cases hi : i < (sortDependencies paths).length
    · rw [map_getD (outcomeOf env) _ i _ p hi, map_getD (outcomeOf env2) _ i _ p hi]
      unfold outcomeOf
      rw [hagree _ hne]
    · have hle : (sortDependencies paths).length ≤ i := by omega
      rw [List.getD_eq_default _ _ (by simpa using hle),
          List.getD_eq_default _ _ (by simpa using hle)]

/-- Environment for the C1 witness: no relations exist and the items
endpoint's fetch throws. -/
def envA : SyncEnv Nat :=
  { tables := [],
    fetchJSON := fun path =>
      if path = "/api/items/list" then .error "boom" else .ok [1, 2],
    parentIds := fun _ => [] }

/-- Witness for C1 at a concrete environment: the thrown fetch error becomes
a zero-row outcome recording the message, and the parameterized endpoint
with no parent relation returns — without throwing — a zero-row outcome
naming the missing `jobs` parent. -/
theorem claim_C1_scheduler_isolation_witness :
    outcomeOf envA "/api/items/list"
      = { resource := "/api/items/list", rowcount := 0, errors := ["boom"] }
    ∧ syncResource envA "/api/jobs/\x7bjobId\x7d/list"
      = .ok { resource := deriveResource "/api/jobs/\x7bjobId\x7d/list", rowcount := 0,
              errors := ["missing parent " ++ parentTableOf "jobId"] } := by
  have h := claim_C1_scheduler_isolation Nat envA envA ["/api/items/list"] ""
  exact ⟨h.2.2.1 "/api/items/list" "boom" rfl,
         h.2.2.2.1 "/api/jobs/\x7bjobId\x7d/list" "jobId" rfl rfl⟩

end Fulcrum
